import Mathlib

/-!
Verification of the robusta repository's rate limiter
(`src/robusta/utils/rate_limiter.py`) and the container-image helper
(`src/robusta/integrations/kubernetes/custom_models.py`), as a shallow
embedding in Lean 4.

The Python rate limiter keeps a process-wide map from string keys to
floating-point timestamps.  We model the map as a function
`String → Option Rat` (absent key = `none`), timestamps and the wall
clock as `Rat`, and the `period_seconds : int` parameter as `Int`.
The nondeterministic clock read `datetime.utcnow().timestamp()` becomes
an explicit `curr_seconds` argument, and the mutation of the shared map
becomes explicit state passing: `mark_and_test` returns the decision
together with the new map.  The lock makes the body atomic; the body
itself is sequential, which is what we embed.

`get_images` builds a Python dict in insertion order; we model the dict
as an association list with Python's assignment semantics (update in
place when the key exists, append otherwise) and `str.split(":",
maxsplit=1)` as a split at the first colon of the character list.
-/

/-- The shared `limiter_map`: `defaultdict(None)` behaves as a plain dict,
so `get` returns `None` exactly on absent keys. -/
def LimiterMap : Type := String → Option Rat

/-- Python truthiness of the value returned by `limiter_map.get(key)`:
`None` is falsy, and so is the float `0.0`; every other number is truthy.
This embeds the `if last_run:` test of the source. -/
def optTruthy : Option Rat → Bool
  | none => false
  | some t => t != 0

/-- `RateLimiter.limiter_map[limiter_key] = curr_seconds`: point update of
the shared map. -/
def mapSet (m : LimiterMap) (k : String) (v : Rat) : LimiterMap :=
  fun x => if x = k then some v else m x

/-- Shallow embedding of `RateLimiter.mark_and_test`.  The key is the bare
concatenation `operation + id`; the stored value is tested with Python
truthiness (`if last_run:`); the window test is the strict comparison
`curr_seconds - last_run > period_seconds`. -/
def mark_and_test (m : LimiterMap) (operation : String) (id : String)
    (period_seconds : Int) (curr_seconds : Rat) : Bool × LimiterMap :=
  let limiter_key := operation ++ id
  let last_run := m limiter_key
  if optTruthy last_run then
    if curr_seconds - last_run.getD 0 > (period_seconds : Rat) then
      (true, mapSet m limiter_key curr_seconds)
    else
      (false, m)
  else
    (true, mapSet m limiter_key curr_seconds)

/-- The empty limiter state. -/
def emptyMap : LimiterMap := fun _ => none

/-- A sample limiter state holding one entry `"ab" ↦ 100`. -/
def sampleMap : LimiterMap :=
  fun x => if x = "ab" then some 100 else none

/-- A sample limiter state holding the falsy entry `"ab" ↦ 0`. -/
def zeroMap : LimiterMap :=
  fun x => if x = "ab" then some 0 else none

/-- A container as far as `get_images` looks at it: only the `image`
field is read. -/
structure Container where
  image : String
  deriving DecidableEq

/-- A Python dict from strings to strings: an association list in
insertion order, with no duplicate keys. -/
abbrev PyDict := List (String × String)

/-- `image.split(":", maxsplit=1)` when a colon is present: the characters
before the first colon and the characters after it; `none` when the
string has no colon (the `":" in container.image` test). -/
def splitFirstColonAux : List Char → Option (List Char × List Char)
  | [] => none
  | c :: cs =>
    if c = ':' then some ([], cs)
    else
      match splitFirstColonAux cs with
      | some (left, right) => some (c :: left, right)
      | none => none

/-- The key/value pair one container adds to the dict: name and tag from
the first-colon split, or the whole image with tag `"<NONE>"`. -/
def imageEntry (image : String) : String × String :=
  match splitFirstColonAux image.data with
  | some (image_name, image_tag) => (String.mk image_name, String.mk image_tag)
  | none => (image, "<NONE>")

/-- Python dict assignment `d[k] = v`: update the value in place when the
key is present, append the pair otherwise. -/
def dictInsert : PyDict → String → String → PyDict
  | [], k, v => [(k, v)]
  | (k0, v0) :: rest, k, v =>
    if k0 = k then (k0, v) :: rest else (k0, v0) :: dictInsert rest k v

/-- Python dict lookup `d.get(k)`. -/
def dictGet : PyDict → String → Option String
  | [], _ => none
  | (k0, v0) :: rest, k => if k = k0 then some v0 else dictGet rest k

/-- One iteration of the loop body of `get_images`: split at the first
colon when there is one, else use the whole image with tag `"<NONE>"`. -/
def get_images_step (name_to_version : PyDict) (container : Container) :
    PyDict :=
  match splitFirstColonAux container.image.data with
  | some (image_name, image_tag) =>
      dictInsert name_to_version (String.mk image_name) (String.mk image_tag)
  | none => dictInsert name_to_version container.image "<NONE>"

/-- Shallow embedding of `get_images`: fold the loop body over the
containers, starting from the empty dict `name_to_version = {}`. -/
def get_images (containers : List Container) : PyDict :=
  containers.foldl get_images_step []

/-- The tag of the last container in the list whose derived image name is
`k`, defaulting to `acc` when there is none. -/
def lastTagFrom (containers : List Container) (k : String)
    (acc : Option String) : Option String :=
  containers.foldl
    (fun a container =>
      if (imageEntry container.image).1 = k then
        some (imageEntry container.image).2
      else a)
    acc

/-- The tag of the last container in the list whose derived image name is
`k`, or `none` when no container has that name. -/
def lastTag (containers : List Container) (k : String) : Option String :=
  lastTagFrom containers k none

/-! Helper lemmas about `mark_and_test`, shared by the claim proofs. -/

/-- When the stored value is falsy (`None` or `0.0`) the call stamps the
key and passes. -/
theorem mark_and_test_eq_of_falsy (m : LimiterMap) (operation id : String)
    (period_seconds : Int) (curr_seconds : Rat)
    (h : optTruthy (m (operation ++ id)) = false) :
    mark_and_test m operation id period_seconds curr_seconds =
      (true, mapSet m (operation ++ id) curr_seconds) := by
  simp [mark_and_test, h]

/-- When the stored value is truthy and the elapsed time does not exceed
the period, the call is suppressed and the map is returned unchanged. -/
theorem mark_and_test_eq_of_blocked (m : LimiterMap) (operation id : String)
    (period_seconds : Int) (curr_seconds : Rat)
    (h : optTruthy (m (operation ++ id)) = true)
    (hc : ¬ (curr_seconds - (m (operation ++ id)).getD 0 >
      (period_seconds : Rat))) :
    mark_and_test m operation id period_seconds curr_seconds = (false, m) := by
  simp [mark_and_test, h, hc]

/-- When the stored value is truthy and the elapsed time exceeds the
period, the call re-stamps the key and passes. -/
theorem mark_and_test_eq_of_expired (m : LimiterMap) (operation id : String)
    (period_seconds : Int) (curr_seconds : Rat)
    (h : optTruthy (m (operation ++ id)) = true)
    (hc : curr_seconds - (m (operation ++ id)).getD 0 >
      (period_seconds : Rat)) :
    mark_and_test m operation id period_seconds curr_seconds =
      (true, mapSet m (operation ++ id) curr_seconds) := by
  simp [mark_and_test, h, hc]

/-! Helper lemmas about `get_images`, shared by the claim proofs. -/

/-- The loop body of `get_images` is dict assignment of the container's
derived entry. -/
theorem get_images_step_eq (m : PyDict) (container : Container) :
    get_images_step m container =
      dictInsert m (imageEntry container.image).1
        (imageEntry container.image).2 := by
  cases h : splitFirstColonAux container.image.data with
  | none => simp [get_images_step, imageEntry, h]
  | some p =>
    obtain ⟨n, t⟩ := p
    simp [get_images_step, imageEntry, h]

/-- Looking up the key just assigned yields the assigned value. -/
theorem dictGet_dictInsert_self (m : PyDict) (k v : String) :
    dictGet (dictInsert m k v) k = some v := by
  induction m with
  | nil => simp [dictInsert, dictGet]
  | cons hd rest ih =>
    obtain ⟨k0, v0⟩ := hd
    by_cases h : k0 = k
    · subst h; simp [dictInsert, dictGet]
    · have h2 : ¬ k = k0 := fun e => h e.symm
      simp [dictInsert, dictGet, h, h2, ih]

/-- Assignment to one key does not change the lookup of another key. -/
theorem dictGet_dictInsert_ne (m : PyDict) (k v k2 : String) (h : k2 ≠ k) :
    dictGet (dictInsert m k v) k2 = dictGet m k2 := by
  induction m with
  | nil => simp [dictInsert, dictGet, h]
  | cons hd rest ih =>
    obtain ⟨k0, v0⟩ := hd
    by_cases h0 : k0 = k
    · subst h0
      simp [dictInsert, dictGet, h]
    · simp [dictInsert, dictGet, h0, ih]

/-- Folding the `get_images` loop body: the final lookup of `k` is the
entry of the last container whose derived name is `k`, defaulting to the
lookup in the starting dict. -/
theorem dictGet_foldl_step (containers : List Container) :
    ∀ (m : PyDict) (k : String),
      dictGet (List.foldl get_images_step m containers) k =
        lastTagFrom containers k (dictGet m k) := by
  induction containers with
  | nil => intro m k; rfl
  | cons container rest ih =>
    intro m k
    rw [List.foldl_cons, ih]
    have hstep : dictGet (get_images_step m container) k =
        if (imageEntry container.image).1 = k then
          some (imageEntry container.image).2
        else dictGet m k := by
      rw [get_images_step_eq]
      by_cases h : (imageEntry container.image).1 = k
      · rw [if_pos h, ← h, dictGet_dictInsert_self]
      · rw [if_neg h, dictGet_dictInsert_ne]
        exact fun e => h e.symm
    rw [hstep]
    rfl

/-! The claims. -/

/-- Claim C1 as stated is false: with the falsy stored timestamp `0`, a
call well inside the window (elapsed `5 ≤ 10`) returns `true` and
overwrites the stored timestamp, because the source tests presence by
truthiness. -/
theorem c1_counterexample :
    zeroMap "ab" = some 0 ∧ (5 : Rat) - 0 ≤ (10 : Int) ∧
    (mark_and_test zeroMap "a" "b" 10 5).1 = true ∧
    (mark_and_test zeroMap "a" "b" 10 5).2 "ab" = some 5 := by
  refine ⟨rfl, by norm_num, ?_, ?_⟩ <;> rfl

/-- Claim C1 (amended): for a key stored with a nonzero timestamp `t`, a
call at elapsed time `now - t ≤ period_seconds` returns `false` and
leaves the whole map — in particular that key's entry — unchanged; this
includes elapsed exactly equal to the period. -/
theorem c1_suppressed_within_period (m : LimiterMap) (operation id : String)
    (period_seconds : Int) (now t : Rat)
    (hstore : m (operation ++ id) = some t) (ht : t ≠ 0)
    (helapsed : now - t ≤ (period_seconds : Rat)) :
    (mark_and_test m operation id period_seconds now).1 = false ∧
    (mark_and_test m operation id period_seconds now).2 = m := by
  have htruthy : optTruthy (m (operation ++ id)) = true := by
    rw [hstore]; simpa [optTruthy] using ht
  have hcmp : ¬ now - (m (operation ++ id)).getD 0 > (period_seconds : Rat) := by
    rw [hstore]; simpa using helapsed
  constructor <;> simp [mark_and_test, htruthy, hcmp]

/-- Witness for C1: at the boundary elapsed = period (`110 - 100 = 10`)
the call is still suppressed and the state is untouched. -/
theorem c1_suppressed_within_period_witness :
    (mark_and_test sampleMap "a" "b" 10 110).1 = false ∧
    (mark_and_test sampleMap "a" "b" 10 110).2 = sampleMap :=
  c1_suppressed_within_period sampleMap "a" "b" 10 110 100 rfl
    (by norm_num) (by norm_num)

/-- Claim C2: for a key already stored with timestamp `t`, a call at
elapsed time strictly greater than the period returns `true` and updates
that key's stored timestamp to `now`. -/
theorem c2_passes_after_period (m : LimiterMap) (operation id : String)
    (period_seconds : Int) (now t : Rat)
    (hstore : m (operation ++ id) = some t)
    (helapsed : now - t > (period_seconds : Rat)) :
    (mark_and_test m operation id period_seconds now).1 = true ∧
    (mark_and_test m operation id period_seconds now).2 (operation ++ id) =
      some now := by
  by_cases ht : t = 0
  · have htruthy : optTruthy (m (operation ++ id)) = false := by
      rw [hstore, ht]; simp [optTruthy]
    constructor <;> simp [mark_and_test, htruthy, mapSet]
  · have htruthy : optTruthy (m (operation ++ id)) = true := by
      rw [hstore]; simpa [optTruthy] using ht
    have hcmp : now - (m (operation ++ id)).getD 0 > (period_seconds : Rat) := by
      rw [hstore]; simpa using helapsed
    constructor <;> simp [mark_and_test, htruthy, hcmp, mapSet]

/-- Witness for C2: elapsed `111 - 100 = 11 > 10` passes and re-stamps the
key. -/
theorem c2_passes_after_period_witness :
    (mark_and_test sampleMap "a" "b" 10 111).1 = true ∧
    (mark_and_test sampleMap "a" "b" 10 111).2 ("a" ++ "b") = some 111 :=
  c2_passes_after_period sampleMap "a" "b" 10 111 100 rfl (by norm_num)

/-- Claim C3: a fresh key (absent from the map) always passes, for every
period, and its current timestamp is recorded. -/
theorem c3_fresh_key_passes (m : LimiterMap) (operation id : String)
    (period_seconds : Int) (now : Rat)
    (hfresh : m (operation ++ id) = none) :
    (mark_and_test m operation id period_seconds now).1 = true ∧
    (mark_and_test m operation id period_seconds now).2 (operation ++ id) =
      some now := by
  have htruthy : optTruthy (m (operation ++ id)) = false := by
    rw [hfresh]; rfl
  constructor <;> simp [mark_and_test, htruthy, mapSet]

/-- Witness for C3: the first call for an unseen key passes even with a
huge period. -/
theorem c3_fresh_key_passes_witness :
    (mark_and_test sampleMap "x" "y" 1000000 7).1 = true ∧
    (mark_and_test sampleMap "x" "y" 1000000 7).2 ("x" ++ "y") = some 7 :=
  c3_fresh_key_passes sampleMap "x" "y" 1000000 7 rfl

/-- Claim C4 as stated is false: the falsy stored timestamp `0` is
overwritten by any call, so with a clock reading of `-1` and the
non-negative period `0` the stored timestamp moves backward from `0` to
`-1`. -/
theorem c4_counterexample :
    zeroMap "ab" = some 0 ∧ (0 : Int) ≤ 0 ∧
    (mark_and_test zeroMap "a" "b" 0 (-1)).2 "ab" = some (-1) ∧
    (-1 : Rat) < 0 := by
  refine ⟨rfl, le_refl 0, rfl, by norm_num⟩

/-- Claim C4 (amended): for non-negative periods, a key stored with a
nonzero timestamp never moves backward: a call either leaves its entry
unchanged or overwrites it with the strictly larger value `now`. -/
theorem c4_timestamp_monotone (m : LimiterMap) (operation id : String)
    (period_seconds : Int) (now t : Rat) (k : String)
    (hstore : m k = some t) (ht : t ≠ 0) (hp : (0 : Int) ≤ period_seconds) :
    (mark_and_test m operation id period_seconds now).2 k = some t ∨
    ((mark_and_test m operation id period_seconds now).2 k = some now ∧
      t < now) := by
  by_cases hk : k = operation ++ id
  · rw [hk] at hstore ⊢
    have htruthy : optTruthy (m (operation ++ id)) = true := by
      rw [hstore]; simpa [optTruthy] using ht
    by_cases hcmp : now - (m (operation ++ id)).getD 0 > (period_seconds : Rat)
    · right
      have hnow : t < now := by
        rw [hstore] at hcmp
        have hge : (0 : Rat) ≤ (period_seconds : Rat) := by exact_mod_cast hp
        simp only [Option.getD_some] at hcmp
        linarith
      exact ⟨by simp [mark_and_test, htruthy, hcmp, mapSet], hnow⟩
    · left
      rw [hstore] at hcmp
      simp only [Option.getD_some] at hcmp
      simp [mark_and_test, hstore, optTruthy, ht, hcmp]
  · by_cases htruthy : optTruthy (m (operation ++ id))
    · by_cases hcmp :
        now - (m (operation ++ id)).getD 0 > (period_seconds : Rat)
      · left; simp [mark_and_test, htruthy, hcmp, mapSet, hk, hstore]
      · left; simp [mark_and_test, htruthy, hcmp, hstore]
    · left
      simp only [Bool.not_eq_true] at htruthy
      simp [mark_and_test, htruthy, mapSet, hk, hstore]

/-- Witness for C4: a passing call moves the stamp forward from `100` to
`111`. -/
theorem c4_timestamp_monotone_witness :
    (mark_and_test sampleMap "a" "b" 10 111).2 "ab" = some 100 ∨
    ((mark_and_test sampleMap "a" "b" 10 111).2 "ab" = some 111 ∧
      (100 : Rat) < 111) :=
  c4_timestamp_monotone sampleMap "a" "b" 10 111 100 "ab" rfl
    (by norm_num) (by norm_num)

/-- Claim C5: a call only ever touches the entry of its own key
`operation ++ id`; every other key's entry is left exactly as it was. -/
theorem c5_other_keys_untouched (m : LimiterMap) (operation id : String)
    (period_seconds : Int) (now : Rat) (k : String)
    (hk : k ≠ operation ++ id) :
    (mark_and_test m operation id period_seconds now).2 k = m k := by
  by_cases htruthy : optTruthy (m (operation ++ id))
  · by_cases hcmp : now - (m (operation ++ id)).getD 0 > (period_seconds : Rat)
    · simp [mark_and_test, htruthy, hcmp, mapSet, hk]
    · simp [mark_and_test, htruthy, hcmp]
  · simp only [Bool.not_eq_true] at htruthy
    simp [mark_and_test, htruthy, mapSet, hk]

/-- Witness for C5: exhausting the window for `"ab"` leaves the distinct
key `"xy"` untouched. -/
theorem c5_other_keys_untouched_witness :
    (mark_and_test sampleMap "a" "b" 10 111).2 "xy" = sampleMap "xy" :=
  c5_other_keys_untouched sampleMap "a" "b" 10 111 "xy" (by decide)

/-- Claim C6: the distinct argument pairs `("a", "bc")` and `("ab", "c")`
concatenate to the same key `"abc"`, so a permitted call for the first
pair suppresses a later call for the second pair inside the window. -/
theorem c6_key_collision :
    ("a", "bc") ≠ ("ab", "c") ∧ "a" ++ "bc" = "ab" ++ "c" ∧
    (mark_and_test emptyMap "a" "bc" 60 100).1 = true ∧
    (mark_and_test (mark_and_test emptyMap "a" "bc" 60 100).2
      "ab" "c" 60 110).1 = false := by
  have h1 : mark_and_test emptyMap "a" "bc" 60 100 =
      (true, mapSet emptyMap ("a" ++ "bc") 100) :=
    mark_and_test_eq_of_falsy emptyMap "a" "bc" 60 100 rfl
  have hlook : mapSet emptyMap ("a" ++ "bc") 100 ("ab" ++ "c") =
      some 100 := rfl
  have htruthy :
      optTruthy (mapSet emptyMap ("a" ++ "bc") 100 ("ab" ++ "c")) = true := by
    rw [hlook]; decide
  have hcmp : ¬ ((110 : Rat) -
      (mapSet emptyMap ("a" ++ "bc") 100 ("ab" ++ "c")).getD 0 >
      ((60 : Int) : Rat)) := by
    rw [hlook]
    norm_num [Option.getD_some]
  have h2 : mark_and_test (mapSet emptyMap ("a" ++ "bc") 100)
      "ab" "c" 60 110 = (false, mapSet emptyMap ("a" ++ "bc") 100) :=
    mark_and_test_eq_of_blocked _ "ab" "c" 60 110 htruthy hcmp
  refine ⟨by decide, rfl, by rw [h1], ?_⟩
  rw [h1]
  show (mark_and_test (mapSet emptyMap ("a" ++ "bc") 100)
    "ab" "c" 60 110).1 = false
  rw [h2]

/-- Claim C7: a stored timestamp equal to `0` is falsy, so the call treats
the key as absent: it returns `true` and overwrites the entry with `now`,
whatever the period and elapsed time are. -/
theorem c7_zero_timestamp_treated_as_absent (m : LimiterMap)
    (operation id : String) (period_seconds : Int) (now : Rat)
    (hstore : m (operation ++ id) = some 0) :
    (mark_and_test m operation id period_seconds now).1 = true ∧
    (mark_and_test m operation id period_seconds now).2 (operation ++ id) =
      some now := by
  have htruthy : optTruthy (m (operation ++ id)) = false := by
    rw [hstore]; simp [optTruthy]
  constructor <;> simp [mark_and_test, htruthy, mapSet]

/-- Witness for C7: with `"ab" ↦ 0` stored, a call at time `3` with a huge
period still passes and re-stamps the key. -/
theorem c7_zero_timestamp_treated_as_absent_witness :
    (mark_and_test zeroMap "a" "b" 1000000 3).1 = true ∧
    (mark_and_test zeroMap "a" "b" 1000000 3).2 ("a" ++ "b") = some 3 :=
  c7_zero_timestamp_treated_as_absent zeroMap "a" "b" 1000000 3 rfl

/-- Claim C9: `mark_and_test` is total — every call returns a boolean —
and empty strings are accepted: they merely shift where the key is split,
so `("", s)` and `(s, "")` produce the same key and behave identically. -/
theorem c9_total_on_all_strings (m : LimiterMap) (s : String)
    (period_seconds : Int) (now : Rat) :
    ((mark_and_test m "" s period_seconds now).1 = true ∨
      (mark_and_test m "" s period_seconds now).1 = false) ∧
    mark_and_test m "" s period_seconds now =
      mark_and_test m s "" period_seconds now := by
  constructor
  · cases h : (mark_and_test m "" s period_seconds now).1
    · right; rfl
    · left; rfl
  · have hkey : ("" : String) ++ s = s ++ "" := by
      rw [String.empty_append, String.append_empty]
    simp only [mark_and_test, hkey]

/-- Claim C10 as stated is false: when two containers derive the same
image name, the later one overwrites the earlier one's tag, so the
earlier container's pair is not in the returned dict. -/
theorem c10_counterexample :
    Container.mk "a:1" ∈ [Container.mk "a:1", Container.mk "a:2"] ∧
    imageEntry "a:1" = ("a", "1") ∧
    dictGet (get_images [Container.mk "a:1", Container.mk "a:2"]) "a" =
      some "2" ∧
    (some "2" : Option String) ≠ some "1" := by
  refine ⟨by decide, rfl, rfl, by decide⟩

/-- Claim C10 (amended): `get_images` maps each derived image name (the
text before the first colon with the text after it as tag, or the whole
image with tag `"<NONE>"` when there is no colon) to the entry of the
LAST container in the list bearing that name; later containers with the
same derived name overwrite earlier ones. -/
theorem c10_get_images_last_container_wins (containers : List Container)
    (k : String) :
    dictGet (get_images containers) k = lastTag containers k := by
  unfold get_images lastTag
  rw [dictGet_foldl_step]
  rfl
